import Mathlib

/-! BLE-DHT22-FreeRTOS: the timer-triggered acquisition and notification pipeline.

A shallow embedding of `src/BLE-DHT22-FreeRTOS/src/main.cpp`.

* C `float` values are carried as IEEE-754 binary32 bit patterns (`Float32`),
  with `isnan` and the exact value read off the bit fields.
* The two FreeRTOS queues are bounded FIFOs (`Queue`), created by `setup` with
  length 8.
* The globals of the sketch (`g_connected`, `measureTimer`, the two queue
  handles, the two characteristics) are the fields of `Pipeline`.
* Every piece of code that runs in its own context (the two server callbacks,
  the timer callback, one loop iteration of each task) is a function on
  `Pipeline`; an interleaving of the contexts is a list of `Event`s.
-/

namespace BleDht22

/-! ## C `float` -/

/-- A C `float`: an IEEE-754 binary32, carried as its bit pattern
(the low 32 bits of `bits`). -/
structure Float32 where
  bits : Nat
deriving DecidableEq, Repr

namespace Float32

/-- Sign bit (bit 31). -/
def sign (x : Float32) : Bool := x.bits / 2 ^ 31 % 2 = 1

/-- Biased exponent field (bits 30..23). -/
def expo (x : Float32) : Nat := x.bits / 2 ^ 23 % 256

/-- Fraction field (bits 22..0). -/
def mant (x : Float32) : Nat := x.bits % 2 ^ 23

/-- The significand as an integer: the fraction for subnormals, the fraction
with the hidden bit otherwise. -/
def significand (x : Float32) : Nat :=
  if x.expo = 0 then x.mant else 2 ^ 23 + x.mant

/-- The exponent `E` such that the magnitude is `significand * 2 ^ (E - 150)`. -/
def scaleExp (x : Float32) : Nat :=
  if x.expo = 0 then 1 else x.expo

end Float32

/-- C `isnan`: exponent field all ones and a non-zero fraction. -/
def isnan (x : Float32) : Bool := x.expo = 255 && x.mant != 0

/-- C `isinf`: exponent field all ones and a zero fraction. -/
def isinf (x : Float32) : Bool := x.expo = 255 && x.mant == 0

/-! ## `snprintf(buf, sizeof(buf), "%.2f", x)` followed by `strlen(buf)` -/

/-- Nearest integer to `n / d`, ties to even (the default rounding of the
decimal conversion). -/
def roundHalfEven (n d : Nat) : Nat :=
  let q := n / d
  let r := n % d
  if 2 * r < d then q
  else if d < 2 * r then q + 1
  else if q % 2 = 0 then q else q + 1

/-- The magnitude of a finite `x`, in hundredths, rounded to an integer: the
digits `%.2f` prints. -/
def hundredths (x : Float32) : Nat :=
  if 150 ≤ x.scaleExp then 100 * x.significand * 2 ^ (x.scaleExp - 150)
  else roundHalfEven (100 * x.significand) (2 ^ (150 - x.scaleExp))

/-- The character of one decimal digit. -/
def digitChar (d : Nat) : Char :=
  match d % 10 with
  | 0 => '0' | 1 => '1' | 2 => '2' | 3 => '3' | 4 => '4'
  | 5 => '5' | 6 => '6' | 7 => '7' | 8 => '8' | _ => '9'

/-- Decimal digits of `n`, most significant first, prepended to `acc`. -/
def decDigitsAux : Nat → Nat → List Char → List Char
  | 0, _, acc => acc
  | fuel + 1, n, acc =>
    if n < 10 then digitChar n :: acc
    else decDigitsAux fuel (n / 10) (digitChar n :: acc)

/-- Decimal digits of `n` without leading zeros (`0` prints as one digit). -/
def decDigits (n : Nat) : List Char := decDigitsAux (n + 1) n []

/-- The sign `printf` prints in front of a negative value. -/
def signChars (x : Float32) : List Char := if x.sign then ['-'] else []

/-- The complete output `printf("%.2f", x)` would produce for the `float` `x`
(promoted to `double` without change of value): sign, integer digits, a point
and two fractional digits; `inf` and `nan` for the non-finite values. -/
def formatFixed2 (x : Float32) : List Char :=
  if isnan x then signChars x ++ ['n', 'a', 'n']
  else if isinf x then signChars x ++ ['i', 'n', 'f']
  else
    signChars x ++ decDigits (hundredths x / 100) ++
      ['.', digitChar (hundredths x / 10), digitChar (hundredths x)]

/-- The bytes `buf[0 .. strlen(buf))` after `snprintf(buf, size, "%.2f", x)`:
`snprintf` stores at most `size - 1` characters and a terminating NUL. -/
def snprintf_2f (size : Nat) (x : Float32) : List Char :=
  (formatFixed2 x).take (size - 1)

/-- Value of `sizeof(buf)` for `char buf[16]` in `taskBLEUpdate`. -/
def BUF_SIZE : Nat := 16

/-- A decimal string with exactly two fractional digits: an optional `-`, at
least one digit, a point, two digits. -/
def twoFractionalDigits (s : List Char) : Bool :=
  let body := if s.head? = some '-' then s.tail else s
  match body.reverse with
  | d2 :: d1 :: p :: ip =>
    p == '.' && d1.isDigit && d2.isDigit && !ip.isEmpty && ip.all Char.isDigit
  | _ => false

/-- Whether `x` is a positive normal `float` below `2 ^ 23` within half a unit
in the last place of the decimal `num / den`: the `float` a decimal literal of
that value denotes. -/
def Float32.nearestTo (x : Float32) (num den : Nat) : Bool :=
  !x.sign && decide (0 < x.expo) && decide (x.expo < 150)
    && decide (2 * x.significand * den ≤ num * 2 ^ (151 - x.expo) + den)
    && decide (num * 2 ^ (151 - x.expo) ≤ 2 * x.significand * den + den)

/-! ## FreeRTOS queues -/

/-- A FreeRTOS queue: a FIFO of at most `uxLength` items, oldest first. -/
structure Queue (α : Type) where
  uxLength : Nat
  items : List α
deriving DecidableEq, Repr

/-- FreeRTOS `xQueueCreate(uxLength, sizeof(α))`: an empty queue. -/
def xQueueCreate {α : Type} (uxLength : Nat) : Queue α := ⟨uxLength, []⟩

/-- FreeRTOS `xQueueSendFromISR(q, &x, nullptr)`: never blocks; appends `x` and returns
`pdTRUE` when there is room, returns `errQUEUE_FULL` and leaves the queue alone
otherwise. -/
def xQueueSendFromISR {α : Type} (q : Queue α) (x : α) : Bool × Queue α :=
  if q.items.length < q.uxLength then (true, { q with items := q.items ++ [x] })
  else (false, q)

/-- FreeRTOS `xQueueSend(q, &x, ticks)` at the moment it returns: the item is appended
if the queue has room by then, and `errQUEUE_FULL` is returned after the wait
otherwise. What the other contexts do during the wait is part of the
interleaving. -/
def xQueueSend {α : Type} (q : Queue α) (x : α) : Bool × Queue α :=
  if q.items.length < q.uxLength then (true, { q with items := q.items ++ [x] })
  else (false, q)

/-- FreeRTOS `xQueueReceive(q, &x, portMAX_DELAY)`: the oldest item and the rest of the
queue; `none` while the queue is empty (the caller stays blocked). -/
def xQueueReceive {α : Type} (q : Queue α) : Option (α × Queue α) :=
  match q.items with
  | [] => none
  | x :: rest => some (x, { q with items := rest })

/-! ## Data model -/

/-- The struct `Reading_t`. -/
structure Reading_t where
  temperatureC : Float32
  humidityPct : Float32
  valid : Bool
deriving DecidableEq, Repr

/-- The initialiser `Reading_t r{}`: value-initialised, every field zero. -/
def Reading_t.zero : Reading_t := ⟨⟨0⟩, ⟨0⟩, false⟩

/-- The two characteristics, `pChTemp` and `pChHum`. -/
inductive Characteristic
  | temp
  | hum
deriving DecidableEq, Repr

/-- A call into the BLE stack made by `taskBLEUpdate`. -/
inductive TransportCall
  | setValue (c : Characteristic) (bytes : List Char)
  | notify (c : Characteristic)
deriving DecidableEq, Repr

/-- The transport layer as the sketch sees it: the cached value of each
characteristic and the calls made so far, oldest first. -/
structure Transport where
  tempValue : List Char
  humValue : List Char
  calls : List TransportCall
deriving DecidableEq, Repr

/-- The effect of one call on the transport layer. -/
def Transport.apply (tr : Transport) (c : TransportCall) : Transport :=
  match c with
  | .setValue .temp bytes => { tr with tempValue := bytes, calls := tr.calls ++ [c] }
  | .setValue .hum bytes => { tr with humValue := bytes, calls := tr.calls ++ [c] }
  | .notify _ => { tr with calls := tr.calls ++ [c] }

/-- The globals of the sketch. -/
structure Pipeline where
  /-- The global `g_connected`, the connection gate. -/
  g_connected : Bool
  /-- Whether `measureTimer` is a non-null handle. -/
  measureTimer : Bool
  /-- Whether the periodic timer is running. -/
  timerActive : Bool
  qMeasureTrigger : Queue Nat
  qNewReading : Queue Reading_t
  /-- The reading `taskDHT` has built and is handing to `xQueueSend`. -/
  dhtPending : Option Reading_t
  transport : Transport
  /-- Calls of `NimBLEDevice::startAdvertising()` made by `onDisconnect`. -/
  advertisingRestarts : Nat
deriving DecidableEq, Repr

/-- The state `setup` leaves behind: both queues created with length 8, the
timer created (dormant) or `measureTimer` null when `xTimerCreate` failed, the
gate closed, both characteristics holding `"NaN"`. -/
def setup (timerCreated : Bool) : Pipeline :=
  { g_connected := false
    measureTimer := timerCreated
    timerActive := false
    qMeasureTrigger := xQueueCreate 8
    qNewReading := xQueueCreate 8
    dhtPending := none
    transport := ⟨['N', 'a', 'N'], ['N', 'a', 'N'], []⟩
    advertisingRestarts := 0 }

/-! ## Timer helpers and server callbacks -/

/-- Function `startMeasureTimer`: `if (measureTimer) xTimerStart(measureTimer, 0)`.
The start command is taken to reach the timer service, which then runs the
timer. -/
def startMeasureTimer (s : Pipeline) : Pipeline :=
  if s.measureTimer then { s with timerActive := true } else s

/-- Function `stopMeasureTimer`: `if (measureTimer) xTimerStop(measureTimer, 0)`.
The stop command is taken to reach the timer service, which then stops the
timer. -/
def stopMeasureTimer (s : Pipeline) : Pipeline :=
  if s.measureTimer then { s with timerActive := false } else s

/-- Callback `ServerCallbacks::onConnect`. -/
def onConnect (s : Pipeline) : Pipeline :=
  startMeasureTimer { s with g_connected := true }

/-- Callback `ServerCallbacks::onDisconnect`. -/
def onDisconnect (s : Pipeline) : Pipeline :=
  let s1 := stopMeasureTimer { s with g_connected := false }
  { s1 with advertisingRestarts := s1.advertisingRestarts + 1 }

/-! ## Timer callback -/

/-- Callback `cbMeasureTimer`: returns at once while the gate is closed, otherwise sends
the token `1` with `xQueueSendFromISR` and discards the status. -/
def cbMeasureTimer (s : Pipeline) : Pipeline :=
  if !s.g_connected then s
  else { s with qMeasureTrigger := (xQueueSendFromISR s.qMeasureTrigger 1).2 }

/-! ## `taskDHT` -/

/-- The reading `taskDHT` builds from `h = dht.readHumidity()` and
`t = dht.readTemperature()`. -/
def mkReading (h t : Float32) : Reading_t :=
  let r := Reading_t.zero
  if isnan h || isnan t then { r with valid := false }
  else { r with valid := true, temperatureC := t, humidityPct := h }

/-- First half of a `taskDHT` iteration: receive a token, read the sensor and
build the reading. Blocked (no change) while the trigger queue is empty, and
not enabled while the previous reading is still being sent. -/
def taskDHT_receive (h t : Float32) (s : Pipeline) : Pipeline :=
  match s.dhtPending with
  | some _ => s
  | none =>
    match xQueueReceive s.qMeasureTrigger with
    | none => s
    | some (_, q) => { s with qMeasureTrigger := q, dhtPending := some (mkReading h t) }

/-- Second half of a `taskDHT` iteration:
`xQueueSend(qNewReading, &r, pdMS_TO_TICKS(50))`, status discarded. -/
def taskDHT_send (s : Pipeline) : Pipeline :=
  match s.dhtPending with
  | none => s
  | some r => { s with qNewReading := (xQueueSend s.qNewReading r).2, dhtPending := none }

/-- One whole `taskDHT` iteration with nothing interleaved. -/
def taskDHT_iter (h t : Float32) (s : Pipeline) : Pipeline :=
  taskDHT_send (taskDHT_receive h t s)

/-! ## `taskBLEUpdate` -/

/-- The transport calls of the body of `taskBLEUpdate` once the reading `r` has
been received, in program order. `connected` is the value of `g_connected` read
by the guard, `subT` and `subH` the values `getSubscribedCount()` returns for
`pChTemp` and `pChHum`. -/
def bleUpdateCalls (connected : Bool) (r : Reading_t) (subT subH : Nat) :
    List TransportCall :=
  if !connected || !r.valid then []
  else
    [.setValue .temp (snprintf_2f BUF_SIZE r.temperatureC),
     .setValue .hum (snprintf_2f BUF_SIZE r.humidityPct)]
      ++ (if subT > 0 then [.notify .temp] else [])
      ++ (if subH > 0 then [.notify .hum] else [])

/-- The body of `taskBLEUpdate` after `xQueueReceive` returned `r`. -/
def bleUpdateBody (connected : Bool) (r : Reading_t) (subT subH : Nat)
    (tr : Transport) : Transport :=
  (bleUpdateCalls connected r subT subH).foldl Transport.apply tr

/-- One iteration of `taskBLEUpdate`: blocked (no change) while the reading
queue is empty; otherwise the oldest reading is taken off the queue and the
body runs on it. -/
def taskBLEUpdate_iter (subT subH : Nat) (s : Pipeline) : Pipeline :=
  match xQueueReceive s.qNewReading with
  | none => s
  | some (r, q) =>
    { s with qNewReading := q
             transport := bleUpdateBody s.g_connected r subT subH s.transport }

/-! ## Interleavings -/

/-- One step of one execution context. -/
inductive Event
  | connect
  | disconnect
  | timerTick
  | dhtReceive (h t : Float32)
  | dhtSend
  | bleUpdate (subT subH : Nat)
deriving DecidableEq, Repr

/-- The step function of the pipeline. -/
def step (s : Pipeline) (e : Event) : Pipeline :=
  match e with
  | .connect => onConnect s
  | .disconnect => onDisconnect s
  | .timerTick => cbMeasureTimer s
  | .dhtReceive h t => taskDHT_receive h t s
  | .dhtSend => taskDHT_send s
  | .bleUpdate subT subH => taskBLEUpdate_iter subT subH s

/-- The state after an interleaving. -/
def run (s : Pipeline) (es : List Event) : Pipeline := es.foldl step s

/-- The reading `taskDHT` produces in this step, if it produces one. -/
def producedAt (s : Pipeline) (e : Event) : Option Reading_t :=
  match e with
  | .dhtReceive h t =>
    match s.dhtPending, xQueueReceive s.qMeasureTrigger with
    | none, some _ => some (mkReading h t)
    | _, _ => none
  | _ => none

/-- The reading `taskBLEUpdate` receives in this step, if it receives one. -/
def receivedAt (s : Pipeline) (e : Event) : Option Reading_t :=
  match e with
  | .bleUpdate _ _ => (xQueueReceive s.qNewReading).map Prod.fst
  | _ => none

/-- The sensor results read for the token `taskDHT` receives in this step, if
it receives one. -/
def acquiredAt (s : Pipeline) (e : Event) : Option (Float32 × Float32) :=
  match e with
  | .dhtReceive h t =>
    match s.dhtPending, xQueueReceive s.qMeasureTrigger with
    | none, some _ => some (h, t)
    | _, _ => none
  | _ => none

/-- The values an observation yields along an interleaving, in order. -/
def traceOf {α : Type} (obs : Pipeline → Event → Option α) :
    Pipeline → List Event → List α
  | _, [] => []
  | s, e :: es => (obs s e).toList ++ traceOf obs (step s e) es

/-- The readings produced by `taskDHT` along an interleaving, in order. -/
def producedTrace (s : Pipeline) (es : List Event) : List Reading_t :=
  traceOf producedAt s es

/-- The readings received by `taskBLEUpdate` along an interleaving, in order. -/
def receivedTrace (s : Pipeline) (es : List Event) : List Reading_t :=
  traceOf receivedAt s es

/-- The sensor results of the tokens `taskDHT` received, in order. -/
def acquiredTrace (s : Pipeline) (es : List Event) : List (Float32 × Float32) :=
  traceOf acquiredAt s es

/-- The connection-lifecycle events the BLE stack delivers. -/
inductive LinkEvent
  | connect
  | disconnect
deriving DecidableEq, Repr

/-- A lifecycle event as a step of the pipeline. -/
def LinkEvent.toEvent : LinkEvent → Event
  | .connect => Event.connect
  | .disconnect => Event.disconnect

/-! ## Helper lemmas -/

theorem foldl_apply_calls (cs : List TransportCall) (tr : Transport) :
    (cs.foldl Transport.apply tr).calls = tr.calls ++ cs := by
  induction cs generalizing tr with
  | nil => simp
  | cons c cs ih =>
    rw [List.foldl_cons, ih]
    cases c with
    | setValue ch b => cases ch <;> simp [Transport.apply]
    | notify ch => simp [Transport.apply]

theorem iter_calls (subT subH : Nat) (s : Pipeline) (r : Reading_t) (q : Queue Reading_t)
    (hq : xQueueReceive s.qNewReading = some (r, q)) :
    (taskBLEUpdate_iter subT subH s).transport.calls
      = s.transport.calls ++ bleUpdateCalls s.g_connected r subT subH := by
  simp [taskBLEUpdate_iter, hq, bleUpdateBody, foldl_apply_calls]

/-! ## Claims about one step -/

/-- C1: for every reading, gate value and pair of subscriber counts, the body
of `taskBLEUpdate` makes no transport call and leaves the transport state as it
was whenever the gate is false or the reading is invalid; so does one whole
iteration run in any state whose gate has that value and whose reading queue
delivers that reading. -/
theorem C1_closed_gate_or_invalid_leaves_transport (connected : Bool) (r : Reading_t)
    (subT subH : Nat) (tr : Transport)
    (h : connected = false ∨ r.valid = false) :
    bleUpdateCalls connected r subT subH = []
      ∧ bleUpdateBody connected r subT subH tr = tr
      ∧ ∀ (s : Pipeline) (q : Queue Reading_t), s.g_connected = connected →
          xQueueReceive s.qNewReading = some (r, q) →
          (taskBLEUpdate_iter subT subH s).transport = s.transport := by
  have hc : bleUpdateCalls connected r subT subH = [] := by
    rcases h with h | h <;> simp [bleUpdateCalls, h]
  refine ⟨hc, by simp [bleUpdateBody, hc], ?_⟩
  intro s q hs hq
  subst hs
  simp [taskBLEUpdate_iter, hq, bleUpdateBody, hc]

/-- C1 at a concrete input: an invalid reading at the head of the reading queue
of a connected pipeline, both characteristics subscribed. -/
theorem C1_witness :
    bleUpdateCalls true ⟨⟨0x41BB3333⟩, ⟨0x42631EB8⟩, false⟩ 1 1 = []
      ∧ (taskBLEUpdate_iter 1 1
          { onConnect (setup true) with
            qNewReading := ⟨8, [⟨⟨0x41BB3333⟩, ⟨0x42631EB8⟩, false⟩]⟩ }).transport
          = (setup true).transport :=
  have h := C1_closed_gate_or_invalid_leaves_transport true
    ⟨⟨0x41BB3333⟩, ⟨0x42631EB8⟩, false⟩ 1 1 (setup true).transport (Or.inr rfl)
  ⟨h.1, h.2.2 _ ⟨8, []⟩ rfl rfl⟩

/-- C2: for a valid reading processed while the gate is connected, the body of
`taskBLEUpdate` makes exactly these calls, in this order: set the temperature
characteristic to the formatted `temperatureC`, set the humidity characteristic
to the formatted `humidityPct`, notify the temperature characteristic iff its
subscriber count is positive, notify the humidity characteristic iff its
subscriber count is positive. Both values are cached whatever the counts are,
and one iteration appends exactly these calls to the transport's history. -/
theorem C2_valid_connected_call_sequence (r : Reading_t) (subT subH : Nat) (tr : Transport)
    (hv : r.valid = true) :
    bleUpdateCalls true r subT subH
        = [TransportCall.setValue .temp (snprintf_2f BUF_SIZE r.temperatureC),
           TransportCall.setValue .hum (snprintf_2f BUF_SIZE r.humidityPct)]
          ++ (if 0 < subT then [TransportCall.notify .temp] else [])
          ++ (if 0 < subH then [TransportCall.notify .hum] else [])
      ∧ (TransportCall.notify .temp ∈ bleUpdateCalls true r subT subH ↔ 0 < subT)
      ∧ (TransportCall.notify .hum ∈ bleUpdateCalls true r subT subH ↔ 0 < subH)
      ∧ (bleUpdateBody true r subT subH tr).tempValue = snprintf_2f BUF_SIZE r.temperatureC
      ∧ (bleUpdateBody true r subT subH tr).humValue = snprintf_2f BUF_SIZE r.humidityPct
      ∧ ∀ (s : Pipeline) (q : Queue Reading_t), s.g_connected = true →
          xQueueReceive s.qNewReading = some (r, q) →
          (taskBLEUpdate_iter subT subH s).transport.calls
            = s.transport.calls ++ bleUpdateCalls true r subT subH := by
  have hc : bleUpdateCalls true r subT subH
        = [TransportCall.setValue .temp (snprintf_2f BUF_SIZE r.temperatureC),
           TransportCall.setValue .hum (snprintf_2f BUF_SIZE r.humidityPct)]
          ++ (if 0 < subT then [TransportCall.notify .temp] else [])
          ++ (if 0 < subH then [TransportCall.notify .hum] else []) := by
    simp [bleUpdateCalls, hv]
  refine ⟨hc, ?_, ?_, ?_, ?_, ?_⟩
  · rw [hc]; by_cases h1 : 0 < subT <;> by_cases h2 : 0 < subH <;> simp [h1, h2]
  · rw [hc]; by_cases h1 : 0 < subT <;> by_cases h2 : 0 < subH <;> simp [h1, h2]
  · rw [bleUpdateBody, hc]
    by_cases h1 : 0 < subT <;> by_cases h2 : 0 < subH <;> simp [h1, h2, Transport.apply]
  · rw [bleUpdateBody, hc]
    by_cases h1 : 0 < subT <;> by_cases h2 : 0 < subH <;> simp [h1, h2, Transport.apply]
  · intro s q hs hq
    rw [iter_calls subT subH s r q hq, hs]

/-- C2 at a concrete input: temperature 23.4, humidity 56.78, one subscriber on
the temperature characteristic and none on the humidity characteristic. -/
theorem C2_witness :
    bleUpdateCalls true ⟨⟨0x41BB3333⟩, ⟨0x42631EB8⟩, true⟩ 1 0
      = [TransportCall.setValue .temp ['2', '3', '.', '4', '0'],
         TransportCall.setValue .hum ['5', '6', '.', '7', '8'],
         TransportCall.notify .temp] :=
  (C2_valid_connected_call_sequence ⟨⟨0x41BB3333⟩, ⟨0x42631EB8⟩, true⟩ 1 0
    (setup true).transport rfl).1.trans (by decide)

/-- C3: the reading `taskDHT` builds from the sensor results `h` (humidity) and
`t` (temperature) is invalid exactly when `h` or `t` is NaN; when neither is,
it is valid, its `temperatureC` is `t` and its `humidityPct` is `h`. One
iteration of `taskDHT` that receives a token hands exactly this reading to
`xQueueSend`. -/
theorem C3_reading_valid_iff_no_nan (h t : Float32) :
    ((mkReading h t).valid = false ↔ (isnan h = true ∨ isnan t = true))
      ∧ ((isnan h = false ∧ isnan t = false) →
          (mkReading h t).valid = true ∧ (mkReading h t).temperatureC = t
            ∧ (mkReading h t).humidityPct = h)
      ∧ ∀ (s : Pipeline) (tok : Nat) (q : Queue Nat), s.dhtPending = none →
          xQueueReceive s.qMeasureTrigger = some (tok, q) →
          (taskDHT_receive h t s).dhtPending = some (mkReading h t) := by
  refine ⟨?_, ?_, ?_⟩
  · cases hh : isnan h <;> cases ht : isnan t <;> simp [mkReading, hh, ht]
  · rintro ⟨hh, ht⟩
    simp [mkReading, hh, ht]
  · intro s tok q hp hq
    simp [taskDHT_receive, hp, hq]

/-- C3 at concrete inputs: a NaN-free pair (h = 56.78, t = 23.4) and a pair
whose humidity is NaN. -/
theorem C3_witness :
    mkReading ⟨0x42631EB8⟩ ⟨0x41BB3333⟩ = ⟨⟨0x41BB3333⟩, ⟨0x42631EB8⟩, true⟩
      ∧ (mkReading ⟨0x7FC00000⟩ ⟨0x41BB3333⟩).valid = false := by
  have h1 := (C3_reading_valid_iff_no_nan ⟨0x42631EB8⟩ ⟨0x41BB3333⟩).2.1 (by decide)
  have h2 := (C3_reading_valid_iff_no_nan ⟨0x7FC00000⟩ ⟨0x41BB3333⟩).1.2 (Or.inl (by decide))
  refine ⟨?_, h2⟩
  obtain ⟨hv, ht, hh⟩ := h1
  generalize mkReading ⟨0x42631EB8⟩ ⟨0x41BB3333⟩ = r at hv ht hh
  cases r
  simp_all

theorem run_append (s : Pipeline) (es fs : List Event) :
    run s (es ++ fs) = run (run s es) fs := by
  simp [run, List.foldl_append]

theorem ticks_fill (n k : Nat) (s : Pipeline) (hc : s.g_connected = true)
    (hq : s.qMeasureTrigger = ⟨8, List.replicate k 1⟩) (hk : k ≤ 8) :
    run s (List.replicate n Event.timerTick)
      = { s with qMeasureTrigger := ⟨8, List.replicate (min (k + n) 8) 1⟩ } := by
  induction n generalizing k s with
  | zero =>
    simp only [List.replicate_zero, run, List.foldl_nil, Nat.add_zero, Nat.min_eq_left hk]
    rw [← hq]
  | succ n ih =>
    rw [List.replicate_succ, run, List.foldl_cons]
    change run (step s Event.timerTick) (List.replicate n Event.timerTick) = _
    by_cases hfull : k < 8
    · have hs : step s Event.timerTick
          = { s with qMeasureTrigger := ⟨8, List.replicate (k + 1) 1⟩ } := by
        simp [step, cbMeasureTimer, hc, xQueueSendFromISR, hq, hfull, List.replicate_succ']
      rw [hs, ih (k + 1) { s with qMeasureTrigger := ⟨8, List.replicate (k + 1) 1⟩ } hc rfl
        (by omega)]
      have : k + 1 + n = k + (n + 1) := by omega
      simp [this]
    · have hk8 : k = 8 := by omega
      have hs : step s Event.timerTick = s := by
        have hlen : ¬ s.qMeasureTrigger.items.length < s.qMeasureTrigger.uxLength := by
          rw [hq, hk8]; simp
        cases s
        simp_all [step, cbMeasureTimer, xQueueSendFromISR]
      rw [hs, ih k s hc hq hk]
      have h1 : min (k + n) 8 = 8 := by omega
      have h2 : min (k + (n + 1)) 8 = 8 := by omega
      rw [h1, h2]

/-- C4: starting from an empty trigger queue of length 8, with the gate
connected and nothing draining the queue, `n` timer callbacks leave exactly
`min n 8` tokens in the queue and change nothing else in the pipeline: the
status of `xQueueSendFromISR` is discarded, so a full queue is reported
nowhere. With `n = 9` the queue holds 8 tokens, the ninth send returns
`errQUEUE_FULL` and the ninth callback leaves the state as it was. -/
theorem C4_trigger_queue_overflow (s : Pipeline) (n : Nat)
    (hc : s.g_connected = true) (hq : s.qMeasureTrigger = xQueueCreate 8) :
    run s (List.replicate n Event.timerTick)
        = { s with qMeasureTrigger := ⟨8, List.replicate (min n 8) 1⟩ }
      ∧ (run s (List.replicate n Event.timerTick)).qMeasureTrigger.items.length = min n 8
      ∧ (run s (List.replicate 9 Event.timerTick)).qMeasureTrigger.items.length = 8
      ∧ (xQueueSendFromISR (run s (List.replicate 8 Event.timerTick)).qMeasureTrigger 1).1
          = false
      ∧ run s (List.replicate 9 Event.timerTick) = run s (List.replicate 8 Event.timerTick) := by
  have key : ∀ m, run s (List.replicate m Event.timerTick)
      = { s with qMeasureTrigger := ⟨8, List.replicate (min m 8) 1⟩ } := by
    intro m
    have := ticks_fill m 0 s hc (by simpa [xQueueCreate] using hq) (by omega)
    simpa using this
  refine ⟨key n, ?_, ?_, ?_, ?_⟩
  · rw [key n]; simp
  · rw [key 9]; simp
  · rw [key 8]; simp [xQueueSendFromISR]
  · rw [key 9, key 8]; simp

/-- C4 at a concrete input: nine callbacks after a connect on the pipeline
`setup` leaves behind. -/
theorem C4_witness :
    (run (onConnect (setup true)) (List.replicate 9 Event.timerTick)).qMeasureTrigger
      = ⟨8, [1, 1, 1, 1, 1, 1, 1, 1]⟩ := by
  have h := (C4_trigger_queue_overflow (onConnect (setup true)) 9 rfl rfl).1
  rw [h]
  decide

/-- C5: while the gate is false the timer callback changes nothing at all
(trigger queue, reading queue, gate and every other field); while the gate is
true it changes only the trigger queue, and only by one non-blocking send of
one token: the queue gains the single token `1` at its tail when it has room
and is left as it was when it is full. -/
theorem C5_timer_callback_frame (s : Pipeline) :
    (s.g_connected = false → cbMeasureTimer s = s)
      ∧ (s.g_connected = true →
          cbMeasureTimer s = { s with qMeasureTrigger := (cbMeasureTimer s).qMeasureTrigger }
            ∧ (cbMeasureTimer s).qMeasureTrigger.uxLength = s.qMeasureTrigger.uxLength
            ∧ (s.qMeasureTrigger.items.length < s.qMeasureTrigger.uxLength →
                (cbMeasureTimer s).qMeasureTrigger.items = s.qMeasureTrigger.items ++ [1])
            ∧ (s.qMeasureTrigger.uxLength ≤ s.qMeasureTrigger.items.length →
                (cbMeasureTimer s).qMeasureTrigger = s.qMeasureTrigger)
            ∧ (cbMeasureTimer s).qMeasureTrigger.items.length
                ≤ s.qMeasureTrigger.items.length + 1) := by
  refine ⟨fun h => by simp [cbMeasureTimer, h], fun h => ?_⟩
  by_cases hroom : s.qMeasureTrigger.items.length < s.qMeasureTrigger.uxLength
  · simp [cbMeasureTimer, h, xQueueSendFromISR, hroom]
  · have hfull : s.qMeasureTrigger.uxLength ≤ s.qMeasureTrigger.items.length := by omega
    simp [cbMeasureTimer, h, xQueueSendFromISR, hroom, hfull]

/-- C5 at concrete inputs: a callback on the disconnected pipeline `setup`
leaves behind, and one on the same pipeline after a connect. -/
theorem C5_witness :
    cbMeasureTimer (setup true) = setup true
      ∧ (cbMeasureTimer (onConnect (setup true))).qMeasureTrigger.items = [1] := by
  have h := C5_timer_callback_frame (setup true)
  have h2 := C5_timer_callback_frame (onConnect (setup true))
  exact ⟨h.1 rfl, (h2.2 rfl).2.2.1 (by decide)⟩

/-! ## The connection state machine -/

theorem onConnect_created (s : Pipeline) (h : s.measureTimer = true) :
    onConnect s = { s with g_connected := true, timerActive := true } := by
  simp [onConnect, startMeasureTimer, h]

theorem onDisconnect_created (s : Pipeline) (h : s.measureTimer = true) :
    onDisconnect s = { s with g_connected := false, timerActive := false,
                              advertisingRestarts := s.advertisingRestarts + 1 } := by
  simp [onDisconnect, stopMeasureTimer, h]

theorem link_run_keeps_timer (ls : List LinkEvent) (s : Pipeline)
    (h : s.measureTimer = true) :
    (run s (ls.map LinkEvent.toEvent)).measureTimer = true := by
  induction ls generalizing s with
  | nil => simpa [run] using h
  | cons l ls ih =>
    simp only [List.map_cons, run, List.foldl_cons]
    apply ih
    cases l
    · simp [LinkEvent.toEvent, step, onConnect_created s h, h]
    · simp [LinkEvent.toEvent, step, onDisconnect_created s h, h]

/-- C9: the pipeline starts DISCONNECTED (gate false, timer not armed);
`onConnect` sets the gate and arms the timer; `onDisconnect` clears the gate,
disarms the timer and requests exactly one advertising restart, touching
nothing else. With the timer created by `setup`, after every non-empty
sequence of connect and disconnect events the timer is armed iff the gate is
true, and the gate is true iff the last event was a connect. -/
theorem C9_connection_state_machine (ls : List LinkEvent) (l : LinkEvent) :
    (∀ tc, (setup tc).g_connected = false ∧ (setup tc).timerActive = false)
      ∧ (∀ s : Pipeline, s.measureTimer = true →
          onConnect s = { s with g_connected := true, timerActive := true })
      ∧ (∀ s : Pipeline, s.measureTimer = true →
          onDisconnect s = { s with g_connected := false, timerActive := false,
                                    advertisingRestarts := s.advertisingRestarts + 1 })
      ∧ ((run (setup true) ((ls ++ [l]).map LinkEvent.toEvent)).timerActive = true
          ↔ (run (setup true) ((ls ++ [l]).map LinkEvent.toEvent)).g_connected = true)
      ∧ ((run (setup true) ((ls ++ [l]).map LinkEvent.toEvent)).g_connected = true
          ↔ l = LinkEvent.connect) := by
  have ht := link_run_keeps_timer ls (setup true) rfl
  have hrun : run (setup true) ((ls ++ [l]).map LinkEvent.toEvent)
      = step (run (setup true) (ls.map LinkEvent.toEvent)) l.toEvent := by
    rw [List.map_append, run_append]; rfl
  refine ⟨fun tc => ⟨rfl, rfl⟩, onConnect_created, onDisconnect_created, ?_, ?_⟩
  · rw [hrun]
    cases l
    · simp [LinkEvent.toEvent, step, onConnect_created _ ht]
    · simp [LinkEvent.toEvent, step, onDisconnect_created _ ht]
  · rw [hrun]
    cases l
    · simp [LinkEvent.toEvent, step, onConnect_created _ ht]
    · simp [LinkEvent.toEvent, step, onDisconnect_created _ ht]

/-- C9 at a concrete input: connect, disconnect, connect. -/
theorem C9_witness :
    (run (setup true) [Event.connect, Event.disconnect, Event.connect]).timerActive = true
      ∧ (run (setup true) [Event.connect, Event.disconnect, Event.connect]).g_connected = true
      ∧ (run (setup true) [Event.connect, Event.disconnect]).advertisingRestarts = 1 := by
  have h := C9_connection_state_machine [LinkEvent.connect, LinkEvent.disconnect]
    LinkEvent.connect
  exact ⟨h.2.2.2.1.2 (h.2.2.2.2.2 rfl), h.2.2.2.2.2 rfl, by decide⟩

/-- C10, as stated, fails where `xTimerCreate` returned null: `onConnect`
after `onDisconnect` opens the gate, yet the guard in `startMeasureTimer`
leaves the timer unarmed, after a reconnect as after a first connect. -/
theorem C10_counterexample :
    (onConnect (onDisconnect (setup false))).g_connected = true
      ∧ (onConnect (onDisconnect (setup false))).timerActive = false
      ∧ (onConnect (setup false)).timerActive = false := by
  decide

/-- C10, amended: for every pipeline state whose timer was created,
`onDisconnect` followed by `onConnect` yields the gate true and the timer
armed, as `onConnect` alone does; the two states differ in nothing but the
count of advertising restarts. The transport calls `taskBLEUpdate` makes for a
reading are a function of that reading, the gate value and the subscriber
counts only: two pipelines with the same gate value that receive the same
reading make the same calls, whatever came before, and after a reconnect the
calls are those of an open gate. -/
theorem C10_reconnect_no_memory (s : Pipeline) (hT : s.measureTimer = true)
    (r : Reading_t) (subT subH : Nat) :
    (onConnect (onDisconnect s)).g_connected = true
      ∧ (onConnect s).g_connected = true
      ∧ (onConnect (onDisconnect s)).timerActive = true
      ∧ (onConnect s).timerActive = true
      ∧ onConnect (onDisconnect s)
          = { onConnect s with advertisingRestarts := s.advertisingRestarts + 1 }
      ∧ (∀ (s1 s2 : Pipeline) (q1 q2 : Queue Reading_t),
          s1.g_connected = s2.g_connected →
          xQueueReceive s1.qNewReading = some (r, q1) →
          xQueueReceive s2.qNewReading = some (r, q2) →
          ∃ cs, (taskBLEUpdate_iter subT subH s1).transport.calls = s1.transport.calls ++ cs
              ∧ (taskBLEUpdate_iter subT subH s2).transport.calls = s2.transport.calls ++ cs)
      ∧ (∀ q : Queue Reading_t,
          xQueueReceive (onConnect (onDisconnect s)).qNewReading = some (r, q) →
          (taskBLEUpdate_iter subT subH (onConnect (onDisconnect s))).transport.calls
            = s.transport.calls ++ bleUpdateCalls true r subT subH) := by
  have hd := onDisconnect_created s hT
  have hc := onConnect_created s hT
  have hdc : onConnect (onDisconnect s)
      = { s with g_connected := true, timerActive := true,
                 advertisingRestarts := s.advertisingRestarts + 1 } := by
    rw [onConnect_created _ (by rw [hd]; exact hT), hd]
  refine ⟨by rw [hdc], by rw [hc], by rw [hdc], by rw [hc], by rw [hdc, hc], ?_, ?_⟩
  · intro s1 s2 q1 q2 hg h1 h2
    refine ⟨bleUpdateCalls s1.g_connected r subT subH, iter_calls subT subH s1 r q1 h1, ?_⟩
    rw [hg]
    exact iter_calls subT subH s2 r q2 h2
  · intro q hq
    rw [iter_calls subT subH _ r q hq, hdc]

/-- C10 (amended) at a concrete input: a session that delivered one reading,
then a disconnect and a reconnect. -/
theorem C10_witness :
    (onConnect (onDisconnect (run (setup true)
        [Event.connect, Event.timerTick, Event.dhtReceive ⟨0x42631EB8⟩ ⟨0x41BB3333⟩,
         Event.dhtSend, Event.bleUpdate 1 1]))).timerActive = true :=
  (C10_reconnect_no_memory _ (by decide) ⟨⟨0x41BB3333⟩, ⟨0x42631EB8⟩, true⟩ 1 1).2.2.1

/-! ## Runs of the pipeline -/

/-- C7: from a pipeline with both queues empty and `taskDHT` idle, for every
NaN-free sensor result, the run connect, timer callback, one `taskDHT`
iteration, disconnect, one `taskBLEUpdate` iteration puts the valid reading in
the reading queue, then takes it off the queue and drops it: the transport
state (cached values and call history) is what it was before the run, the
reading queue is empty afterwards, and a later reconnect followed by another
`taskBLEUpdate` iteration still makes no transport call. -/
theorem C7_disconnect_drops_in_flight (s : Pipeline) (h t : Float32) (subT subH : Nat)
    (hh : isnan h = false) (ht : isnan t = false)
    (hq1 : s.qMeasureTrigger = xQueueCreate 8) (hq2 : s.qNewReading = xQueueCreate 8)
    (hp : s.dhtPending = none) :
    (run s [Event.connect, Event.timerTick, Event.dhtReceive h t,
            Event.dhtSend]).qNewReading.items = [⟨t, h, true⟩]
      ∧ (run s [Event.connect, Event.timerTick, Event.dhtReceive h t, Event.dhtSend,
                Event.disconnect, Event.bleUpdate subT subH]).transport = s.transport
      ∧ receivedTrace s [Event.connect, Event.timerTick, Event.dhtReceive h t, Event.dhtSend,
                Event.disconnect, Event.bleUpdate subT subH] = [⟨t, h, true⟩]
      ∧ (run s [Event.connect, Event.timerTick, Event.dhtReceive h t, Event.dhtSend,
                Event.disconnect, Event.bleUpdate subT subH]).qNewReading.items = []
      ∧ (run s [Event.connect, Event.timerTick, Event.dhtReceive h t, Event.dhtSend,
                Event.disconnect, Event.bleUpdate subT subH]).dhtPending = none
      ∧ ∀ a b : Nat,
          (run s [Event.connect, Event.timerTick, Event.dhtReceive h t, Event.dhtSend,
                  Event.disconnect, Event.bleUpdate subT subH,
                  Event.connect, Event.bleUpdate a b]).transport = s.transport := by
  obtain ⟨g, mt, ta, q1, q2, pend, tr, adv⟩ := s
  simp only at hq1 hq2 hp
  subst hq1 hq2 hp
  have hr : mkReading h t = ⟨t, h, true⟩ := by simp [mkReading, hh, ht, Reading_t.zero]
  cases mt <;>
    simp [run, step, onConnect, onDisconnect, startMeasureTimer, stopMeasureTimer,
      cbMeasureTimer, taskDHT_receive, taskDHT_send, taskBLEUpdate_iter, xQueueCreate,
      xQueueSendFromISR, xQueueSend, xQueueReceive, hr, bleUpdateBody, bleUpdateCalls,
      receivedTrace, traceOf, receivedAt]

/-- C7 at a concrete input: `setup`, then the run with h = 56.78, t = 23.4 and
both characteristics subscribed. -/
theorem C7_witness :
    (run (setup true) [Event.connect, Event.timerTick,
        Event.dhtReceive ⟨0x42631EB8⟩ ⟨0x41BB3333⟩, Event.dhtSend,
        Event.disconnect, Event.bleUpdate 1 1]).transport = (setup true).transport :=
  (C7_disconnect_drops_in_flight (setup true) ⟨0x42631EB8⟩ ⟨0x41BB3333⟩ 1 1
    (by decide) (by decide) rfl rfl rfl).2.1

theorem step_fifo (s : Pipeline) (e : Event) :
    ((receivedAt s e).toList ++ (step s e).qNewReading.items
        ++ (step s e).dhtPending.toList).Sublist
      (s.qNewReading.items ++ s.dhtPending.toList ++ (producedAt s e).toList) := by
  obtain ⟨g, mt, ta, q1, ⟨n2, l2⟩, pend, tr, adv⟩ := s
  cases e with
  | connect =>
    cases mt <;> simp [step, onConnect, startMeasureTimer, receivedAt, producedAt]
  | disconnect =>
    cases mt <;> simp [step, onDisconnect, stopMeasureTimer, receivedAt, producedAt]
  | timerTick =>
    cases g <;> simp [step, cbMeasureTimer, receivedAt, producedAt]
  | dhtReceive h t =>
    obtain ⟨n1, l1⟩ := q1
    cases pend <;> cases l1 <;>
      simp [step, taskDHT_receive, xQueueReceive, receivedAt, producedAt]
  | dhtSend =>
    cases pend with
    | none => simp [step, taskDHT_send, receivedAt, producedAt]
    | some r =>
      by_cases hroom : l2.length < n2 <;>
        simp [step, taskDHT_send, xQueueSend, receivedAt, producedAt, hroom]
  | bleUpdate a b =>
    cases l2 <;> simp [step, taskBLEUpdate_iter, xQueueReceive, receivedAt, producedAt]

theorem run_fifo (es : List Event) (s : Pipeline) :
    (receivedTrace s es ++ (run s es).qNewReading.items
        ++ (run s es).dhtPending.toList).Sublist
      (s.qNewReading.items ++ s.dhtPending.toList ++ producedTrace s es) := by
  induction es generalizing s with
  | nil => simp [receivedTrace, producedTrace, traceOf, run]
  | cons e es ih =>
    have h1 := ih (step s e)
    have h2 := step_fifo s e
    have hrun : run s (e :: es) = run (step s e) es := rfl
    have hrec : receivedTrace s (e :: es)
        = (receivedAt s e).toList ++ receivedTrace (step s e) es := rfl
    have hpro : producedTrace s (e :: es)
        = (producedAt s e).toList ++ producedTrace (step s e) es := rfl
    rw [hrun, hrec, hpro]
    have h3 := (List.Sublist.refl (receivedAt s e).toList).append h1
    have h4 := h2.append (List.Sublist.refl (producedTrace (step s e) es))
    have h5 : ((receivedAt s e).toList ++ (step s e).qNewReading.items
        ++ (step s e).dhtPending.toList ++ producedTrace (step s e) es)
        = (receivedAt s e).toList ++ ((step s e).qNewReading.items
        ++ (step s e).dhtPending.toList ++ producedTrace (step s e) es) := by
      simp [List.append_assoc]
    rw [h5] at h4
    have h6 := h3.trans h4
    simpa [List.append_assoc] using h6

theorem produced_eq_map_acquired (es : List Event) (s : Pipeline) :
    producedTrace s es = (acquiredTrace s es).map (fun p => mkReading p.1 p.2) := by
  induction es generalizing s with
  | nil => rfl
  | cons e es ih =>
    have hpro : producedTrace s (e :: es)
        = (producedAt s e).toList ++ producedTrace (step s e) es := rfl
    have hacq : acquiredTrace s (e :: es)
        = (acquiredAt s e).toList ++ acquiredTrace (step s e) es := rfl
    rw [hpro, hacq, List.map_append, ih]
    congr 1
    cases e with
    | dhtReceive h t =>
      cases hp : s.dhtPending <;> cases hq : xQueueReceive s.qMeasureTrigger <;>
        simp [producedAt, acquiredAt, hp, hq]
    | _ => simp [producedAt, acquiredAt]

/-- C8: for every interleaving of server callbacks, timer callbacks, `taskDHT`
steps and `taskBLEUpdate` steps run from the state `setup` leaves behind (both
queues FIFOs of length 8), the readings received by `taskBLEUpdate` are, in
order, a subsequence of the readings produced by `taskDHT`; the readings
received, those still queued and the one being sent are together, in that
order, a subsequence too; and `taskDHT` produces one reading per token it
receives, in the order it receives them. -/
theorem C8_fifo_end_to_end (tc : Bool) (es : List Event) :
    (receivedTrace (setup tc) es).Sublist (producedTrace (setup tc) es)
      ∧ (receivedTrace (setup tc) es ++ (run (setup tc) es).qNewReading.items
          ++ (run (setup tc) es).dhtPending.toList).Sublist (producedTrace (setup tc) es)
      ∧ producedTrace (setup tc) es
          = (acquiredTrace (setup tc) es).map (fun p => mkReading p.1 p.2)
      ∧ (setup tc).qMeasureTrigger.uxLength = 8 ∧ (setup tc).qNewReading.uxLength = 8 := by
  have h := run_fifo es (setup tc)
  have h0 : (setup tc).qNewReading.items ++ (setup tc).dhtPending.toList
      ++ producedTrace (setup tc) es = producedTrace (setup tc) es := rfl
  rw [h0] at h
  refine ⟨?_, h, produced_eq_map_acquired es (setup tc), rfl, rfl⟩
  refine List.Sublist.trans ?_ h
  rw [List.append_assoc]
  exact List.sublist_append_left _ _

/-! ## Formatting -/

theorem digitChar_isDigit (d : Nat) : (digitChar d).isDigit = true := by
  unfold digitChar
  split <;> decide

theorem decDigitsAux_digits (fuel n : Nat) (acc : List Char)
    (hacc : ∀ c ∈ acc, c.isDigit = true) :
    ∀ c ∈ decDigitsAux fuel n acc, c.isDigit = true := by
  induction fuel generalizing n acc with
  | zero => simpa [decDigitsAux] using hacc
  | succ fuel ih =>
    unfold decDigitsAux
    split
    · intro c hc
      rcases List.mem_cons.1 hc with rfl | hc
      · exact digitChar_isDigit n
      · exact hacc c hc
    · apply ih
      intro c hc
      rcases List.mem_cons.1 hc with rfl | hc
      · exact digitChar_isDigit n
      · exact hacc c hc

theorem decDigitsAux_length (fuel k n : Nat) (acc : List Char) (hk : 1 ≤ k)
    (hn : n < 10 ^ k) : (decDigitsAux fuel n acc).length ≤ k + acc.length := by
  induction fuel generalizing k n acc with
  | zero => simp [decDigitsAux]
  | succ fuel ih =>
    unfold decDigitsAux
    split
    · simp; omega
    · rename_i h10
      obtain ⟨j, rfl⟩ : ∃ j, k = j + 1 := ⟨k - 1, by omega⟩
      have hj : 1 ≤ j := by
        rcases Nat.eq_zero_or_pos j with rfl | hj
        · simp at hn; omega
        · exact hj
      have hdiv : n / 10 < 10 ^ j := by
        rw [Nat.div_lt_iff_lt_mul (by norm_num)]
        rw [pow_succ] at hn
        exact hn
      have := ih j (n / 10) (digitChar n :: acc) hj hdiv
      simp at this
      omega

theorem decDigitsAux_ne_nil (fuel n : Nat) (acc : List Char) (hacc : acc ≠ []) :
    decDigitsAux fuel n acc ≠ [] := by
  induction fuel generalizing n acc with
  | zero => simpa [decDigitsAux] using hacc
  | succ fuel ih =>
    unfold decDigitsAux
    split
    · simp
    · exact ih _ _ (by simp)

theorem decDigits_ne_nil (n : Nat) : decDigits n ≠ [] := by
  unfold decDigits decDigitsAux
  split
  · simp
  · exact decDigitsAux_ne_nil _ _ _ (by simp)

theorem twoFractionalDigits_shape (neg : Bool) (ds : List Char) (a b : Char)
    (hne : ds ≠ []) (hds : ∀ c ∈ ds, c.isDigit = true)
    (ha : a.isDigit = true) (hb : b.isDigit = true) :
    twoFractionalDigits ((if neg then ['-'] else []) ++ ds ++ ['.', a, b]) = true := by
  obtain ⟨c, cs, rfl⟩ : ∃ c cs, ds = c :: cs := by
    cases ds with
    | nil => exact absurd rfl hne
    | cons c cs => exact ⟨c, cs, rfl⟩
  have hc : c ≠ '-' := by
    intro h
    have := hds c (by simp)
    rw [h] at this
    exact absurd this (by decide)
  have hall : ∀ x ∈ cs, x.isDigit = true := fun x hx => hds x (by simp [hx])
  have hcd : c.isDigit = true := hds c (by simp)
  cases neg
  · simp [twoFractionalDigits, hc, ha, hb, hcd]
    exact hall
  · simp [twoFractionalDigits, ha, hb, hcd]
    exact hall

/-- C6, as stated, fails on large magnitudes: the `float` 2^43 =
8796093022208 is not NaN, so a valid reading can carry it, and `%.2f` needs 16
characters for it; the 16-byte buffer keeps 15 of them, and the string written
to the characteristic ends in a single fractional digit. -/
theorem C6_counterexample :
    isnan ⟨0x55000000⟩ = false
      ∧ formatFixed2 ⟨0x55000000⟩
          = ['8', '7', '9', '6', '0', '9', '3', '0', '2', '2', '2', '0', '8', '.', '0', '0']
      ∧ snprintf_2f BUF_SIZE ⟨0x55000000⟩
          = ['8', '7', '9', '6', '0', '9', '3', '0', '2', '2', '2', '0', '8', '.', '0']
      ∧ twoFractionalDigits (snprintf_2f BUF_SIZE ⟨0x55000000⟩) = false
      ∧ bleUpdateCalls true ⟨⟨0x55000000⟩, ⟨0x42631EB8⟩, true⟩ 0 0
          = [TransportCall.setValue .temp
               ['8', '7', '9', '6', '0', '9', '3', '0', '2', '2', '2', '0', '8', '.', '0'],
             TransportCall.setValue .hum ['5', '6', '.', '7', '8']] := by
  decide

/-- C6, amended: for every finite `float` whose magnitude, rounded to
hundredths, is below 10^11, the bytes written to the characteristic
(`snprintf` with `%.2f` into the 16-byte buffer, then the first `strlen`
bytes) are the complete conversion: an optional sign, the integer digits, a
point and exactly two fractional digits. For temperature 23.4 and humidity
56.78 (the `float`s nearest to these decimals) the strings are exactly
`23.40` and `56.78`. -/
theorem C6_format_two_decimals (x : Float32)
    (hnan : isnan x = false) (hinf : isinf x = false) (hmag : hundredths x < 10 ^ 13) :
    snprintf_2f BUF_SIZE x = formatFixed2 x
      ∧ snprintf_2f BUF_SIZE x
          = signChars x ++ decDigits (hundredths x / 100)
              ++ ['.', digitChar (hundredths x / 10), digitChar (hundredths x)]
      ∧ twoFractionalDigits (snprintf_2f BUF_SIZE x) = true
      ∧ Float32.nearestTo ⟨0x41BB3333⟩ 234 10 = true
      ∧ Float32.nearestTo ⟨0x42631EB8⟩ 5678 100 = true
      ∧ snprintf_2f BUF_SIZE ⟨0x41BB3333⟩ = ['2', '3', '.', '4', '0']
      ∧ snprintf_2f BUF_SIZE ⟨0x42631EB8⟩ = ['5', '6', '.', '7', '8'] := by
  have hfmt : formatFixed2 x = signChars x ++ decDigits (hundredths x / 100)
      ++ ['.', digitChar (hundredths x / 10), digitChar (hundredths x)] := by
    simp [formatFixed2, hnan, hinf]
  have hdiv : hundredths x / 100 < 10 ^ 11 := by
    rw [Nat.div_lt_iff_lt_mul (by norm_num)]
    calc hundredths x < 10 ^ 13 := hmag
      _ = 10 ^ 11 * 100 := by norm_num
  have hlen : (decDigits (hundredths x / 100)).length ≤ 11 := by
    have := decDigitsAux_length (hundredths x / 100 + 1) 11 (hundredths x / 100) []
      (by norm_num) hdiv
    simpa [decDigits] using this
  have hsign : (signChars x).length ≤ 1 := by
    unfold signChars; split <;> simp
  have htake : snprintf_2f BUF_SIZE x = formatFixed2 x := by
    unfold snprintf_2f BUF_SIZE
    apply List.take_of_length_le
    rw [hfmt]
    simp
    omega
  refine ⟨htake, htake.trans hfmt, ?_, by decide, by decide, by decide, by decide⟩
  rw [htake, hfmt]
  exact twoFractionalDigits_shape x.sign _ _ _ (decDigits_ne_nil _)
    (decDigitsAux_digits _ _ _ (by simp)) (digitChar_isDigit _) (digitChar_isDigit _)

/-- C6 (amended) at a concrete input: the largest temperature magnitude a
DHT22 frame can encode, -3276.7. -/
theorem C6_witness :
    snprintf_2f BUF_SIZE ⟨0xC54CCB33⟩ = ['-', '3', '2', '7', '6', '.', '7', '0']
      ∧ twoFractionalDigits (snprintf_2f BUF_SIZE ⟨0xC54CCB33⟩) = true :=
  have h := C6_format_two_decimals ⟨0xC54CCB33⟩ (by decide) (by decide) (by decide)
  ⟨h.2.1.trans (by decide), h.2.2.1⟩

end BleDht22
